import Mathlib

/-!
# Verification of the amm-voyage Uniswap-V3 swap-simulation core

This file gives a shallow embedding, in Lean 4, of the fixed-point math and
swap state machine of the `amm-voyage` repository, and proves (or refutes)
the specification claims about it.

Conventions of the embedding:

* `U256` values are represented as `Nat`, kept below `2 ^ 256` by
  construction: every operation the Rust code performs with wrap-around
  semantics is followed by an explicit `% 2 ^ 256`.
* `I256` / `i128` / `i32` values are represented as `Int`.  Two's-complement
  raw forms are obtained with `i256Raw` / `toSigned`.
* Rust arithmetic is embedded with the release-profile (wrap-on-overflow)
  semantics.  This is the only profile under which the library functions at
  all: `full_math::mul_div` performs `U256` multiplications such as
  `inv * (U256_2 - denominator * inv)` that overflow on virtually every call
  and would abort immediately under the checked (dev) profile, and the
  guard patterns of `liquidity_math::add_delta` (`z < x` after a wrapping
  subtraction) are meaningful only with wrap-around arithmetic.
* Fallible Rust functions returning `Result<T, E>` become
  `Except String T`; loops become fuel-indexed recursion.
-/

set_option maxRecDepth 40000

deriving instance DecidableEq for Except

namespace AmmVoyage

/-- `2 ^ 256`, the modulus of `U256` arithmetic. -/
def M256 : Nat := 2 ^ 256

/-- `U160::MAX` as a `U256` value. -/
def U160MAX : Nat := 2 ^ 160 - 1

/-- Wrapping `U256` addition (`overflowing_add().0` / release `+`). -/
def wadd (x y : Nat) : Nat := (x + y) % M256

/-- Wrapping `U256` subtraction (`overflowing_sub().0` / release `-`);
faithful for arguments below `2 ^ 256`, which all embedded values are. -/
def wsub (x y : Nat) : Nat := (x + M256 - y) % M256

/-- Wrapping `U256` multiplication (`overflowing_mul().0` / release `*`). -/
def wmul (x y : Nat) : Nat := x * y % M256

/-- Two's-complement raw form of an `I256` value (`into_raw`). -/
def i256Raw (i : Int) : Nat := (i % (2 ^ 256 : Int)).toNat

/-- Signed reading of a raw 256-bit word (`I256::from_raw`). -/
def toSigned (r : Nat) : Int := if r < 2 ^ 255 then (r : Int) else (r : Int) - 2 ^ 256

/-- Wrapping `I256` arithmetic: wrap an unbounded integer into the
`I256` range (release-profile `+=`/`-=` on `I256`). -/
def i256Wrap (i : Int) : Int := toSigned (i256Raw i)

/-- Truncated (Rust) integer division (`/` on `i32`). -/
def rustDiv (a b : Int) : Int := Int.tdiv a b

/-- Truncated (Rust) integer remainder (`%` on `i32`). -/
def rustRem (a b : Int) : Int := Int.tmod a b

/-! ## `math/full_math.rs` -/

/-- Embedding of `full_math::mul_div` (512-bit precision `floor(a*b/denominator)`
via Remco Bloemen's algorithm).  The borrow of the remainder subtraction is
computed against the already-updated `prod0`, exactly as the Rust source does
(`prod0 = prod0.overflowing_sub(remainder).0;
prod1 = prod1.overflowing_sub(U256::from(remainder > prod0)).0;`). -/
def mulDiv (a b denominator : Nat) : Except String Nat :=
  let mm := a * b % (M256 - 1)
  let prod0 := a * b % M256
  let prod1 := wsub (wsub mm prod0) (if mm < prod0 then 1 else 0)
  if prod1 = 0 then
    if denominator = 0 then .error "Denominator is zero"
    else .ok (prod0 / denominator)
  else if denominator ≤ prod1 then .error "Denomniator is less than prod one"
  else
    let remainder := a * b % denominator
    let prod0 := wsub prod0 remainder
    let prod1 := wsub prod1 (if remainder > prod0 then 1 else 0)
    let twos := Nat.land (wsub 0 denominator) denominator
    let denominator := denominator / twos
    let prod0 := prod0 / twos
    let twos := wadd (wsub 0 twos / twos) 1
    let prod0 := Nat.lor prod0 (wmul prod1 twos)
    let inv := Nat.xor (wmul 3 denominator) 2
    let inv := wmul inv (wsub 2 (wmul denominator inv))
    let inv := wmul inv (wsub 2 (wmul denominator inv))
    let inv := wmul inv (wsub 2 (wmul denominator inv))
    let inv := wmul inv (wsub 2 (wmul denominator inv))
    let inv := wmul inv (wsub 2 (wmul denominator inv))
    let inv := wmul inv (wsub 2 (wmul denominator inv))
    .ok (wmul prod0 inv)

/-- Embedding of `full_math::mul_div_rounding_up`. -/
def mulDivRoundingUp (a b denominator : Nat) : Except String Nat :=
  match mulDiv a b denominator with
  | .ok result =>
      if a * b % denominator > 0 then
        if result < M256 - 1 then .ok (result + 1)
        else .error "Result is u256 max value"
      else .ok result
  | .error e => .error e

/-! ## `tick_math.rs` -/

/-- One multiplication step of the tick-to-price table walk:
`ratio = (ratio * c) >> 128`. -/
def ratioStep (acc c : Nat) : Nat := (acc * c) >>> 128

/-- The magic multipliers of `get_sqrt_ratio_at_tick` for bits 1–9 of
`abs_tick`, paired with the bit mask the source tests (`abs_tick & U256_2`,
`abs_tick & U256_4`, ...). -/
def tickConstsLow : List (Nat × Nat) :=
  [(2, 340248342086729790484326174814286782778),
   (4, 340214320654664324051920982716015181260),
   (8, 340146287995602323631171512101879684304),
   (16, 340010263488231146823593991679159461444),
   (32, 339738377640345403697157401104375502016),
   (64, 339195258003219555707034227454543997025),
   (128, 338111622100601834656805679988414885971),
   (256, 335954724994790223023589805789778977700),
   (512, 331682121138379247127172139078559817300)]

/-- The magic multipliers of `get_sqrt_ratio_at_tick` for bits 10–19 of
`abs_tick`. -/
def tickConstsHigh : List (Nat × Nat) :=
  [(1024, 323299236684853023288211250268160618739),
   (2048, 307163716377032989948697243942600083929),
   (4096, 277268403626896220162999269216087595045),
   (8192, 225923453940442621947126027127485391333),
   (16384, 149997214084966997727330242082538205943),
   (32768, 66119101136024775622716233608466517926),
   (65536, 12847376061809297530290974190478138313),
   (131072, 485053260817066172746253684029974020),
   (262144, 691415978906521570653435304214168),
   (524288, 1404880482679654955896180642)]

/-- Apply the conditional multiplier steps of `get_sqrt_ratio_at_tick`
selected by the set bits of `n`. -/
def applyConsts (n : Nat) (cs : List (Nat × Nat)) (r : Nat) : Nat :=
  cs.foldl (fun acc p => if n &&& p.1 != 0 then ratioStep acc p.2 else acc) r

/-- The Q128 intermediate `ratio` of `get_sqrt_ratio_at_tick` as a function of
`abs_tick` (the twenty conditional multiplications of the source, in source
order: the bit-0 initial value, then bits 1–9, then bits 10–19). -/
def ratioAtAbsTick (n : Nat) : Nat :=
  applyConsts n tickConstsHigh
    (applyConsts n tickConstsLow
      (if n &&& 1 != 0 then 340265354078544963557816517032075149313 else 2 ^ 128))

/-- `tick_math::MIN_TICK`. -/
def MIN_TICK : Int := -887272

/-- `tick_math::MAX_TICK`. -/
def MAX_TICK : Int := 887272

/-- `tick_math::MIN_SQRT_RATIO`. -/
def MIN_SQRT_RATIO : Nat := 4295128739

/-- `tick_math::MAX_SQRT_RATIO`
(`U256::from_limbs([6743328256752651558, 17280870778742802505, 4294805859, 0])`). -/
def MAX_SQRT_RATIO : Nat := 1461446703485210103287273052203988822378723970342

/-- Embedding of `tick_math::get_sqrt_ratio_at_tick`. -/
def getSqrtRatioAtTick (tick : Int) : Except String Nat :=
  let absTick : Nat := tick.natAbs
  if absTick > 887272 then .error "Tick out of bounds"
  else
    let ratio := ratioAtAbsTick absTick
    let ratio := if tick > 0 then (M256 - 1) / ratio else ratio
    .ok ((ratio >>> 32) + (if ratio % 2 ^ 32 = 0 then 0 else 1))

/-- Arithmetic right shift by 128 of a raw (two's-complement) `I256` word
(`>> 128_u8` on `I256`). -/
def sar128 (raw : Nat) : Nat := i256Raw (Int.fdiv (toSigned raw) (2 ^ 128))

/-- `I256::low_i32`: the low 32 bits read as a signed 32-bit integer. -/
def lowI32 (raw : Nat) : Int :=
  let v : Nat := raw % 2 ^ 32
  if v < 2 ^ 31 then (v : Int) else (v : Int) - 2 ^ 32

/-- One iteration of the binary-logarithm refinement loop of
`get_tick_at_sqrt_ratio` (state: `(r, log_2)` raw words, `i` the bit index). -/
def logStep (st : Nat × Nat) (i : Nat) : Nat × Nat :=
  let r := wmul st.1 st.1 >>> 127
  let f := r >>> 128
  let log2 := Nat.lor st.2 ((f <<< i) % M256)
  (r >>> f, log2)

/-- Embedding of `tick_math::get_tick_at_sqrt_ratio`. -/
def getTickAtSqrtRatio (sqrtPriceX96 : Nat) : Except String Int :=
  if ¬(sqrtPriceX96 ≥ MIN_SQRT_RATIO ∧ sqrtPriceX96 < MAX_SQRT_RATIO) then
    .error "The price is out of bounds"
  else
    let ratio := (sqrtPriceX96 <<< 32) % M256
    let r := ratio
    let f := if r > 2 ^ 128 - 1 then 128 else 0
    let msb := Nat.lor 0 f
    let r := r >>> f
    let f := if r > 2 ^ 64 - 1 then 64 else 0
    let msb := Nat.lor msb f
    let r := r >>> f
    let f := if r > 2 ^ 32 - 1 then 32 else 0
    let msb := Nat.lor msb f
    let r := r >>> f
    let f := if r > 65535 then 16 else 0
    let msb := Nat.lor msb f
    let r := r >>> f
    let f := if r > 255 then 8 else 0
    let msb := Nat.lor msb f
    let r := r >>> f
    let f := if r > 15 then 4 else 0
    let msb := Nat.lor msb f
    let r := r >>> f
    let f := if r > 3 then 2 else 0
    let msb := Nat.lor msb f
    let r := r >>> f
    let f := if r > 1 then 1 else 0
    let msb := Nat.lor msb f
    let r := if msb ≥ 128 then ratio >>> (msb - 127) else (ratio <<< (127 - msb)) % M256
    let log2 := (i256Raw ((msb : Int) - 128) <<< 64) % M256
    let st := ([63, 62, 61, 60, 59, 58, 57, 56, 55, 54, 53, 52, 51] : List Nat).foldl
      logStep (r, log2)
    let r := wmul st.1 st.1 >>> 127
    let f := r >>> 128
    let log2 := Nat.lor st.2 ((f <<< 50) % M256)
    let logSqrt10001 := wmul log2 255738958999603826347141
    let tickLow := lowI32 (sar128 (wsub logSqrt10001 3402992956809132418596140100660247210))
    let tickHigh := lowI32 (sar128 (wadd logSqrt10001 291339464771989622907027621153398088495))
    if tickLow = tickHigh then .ok tickLow
    else
      match getSqrtRatioAtTick tickHigh with
      | .error e => .error e
      | .ok v => .ok (if v ≤ sqrtPriceX96 then tickHigh else tickLow)

/-- The price-to-tick round trip of claim C2:
`get_tick_at_sqrt_ratio(get_sqrt_ratio_at_tick(t))` succeeds with exactly `t`. -/
def roundTripOk (t : Int) : Bool :=
  match getSqrtRatioAtTick t with
  | .ok p =>
      match getTickAtSqrtRatio p with
      | .ok t2 => t2 == t
      | .error _ => false
  | .error _ => false

/-- A dense sample of ticks in `[MIN_TICK, MAX_TICK - 1]`, including both
endpoints of that range, word boundaries, powers of two and their
neighbours. -/
def sampleTicks : List Int :=
  [-887272, -887271, -887270, -800000, -700001, -600000, -500000, -400000,
   -300000, -250000, -200000, -150000, -100000, -75001, -50000, -30000,
   -20000, -10000, -5000, -2500, -1000, -513, -512, -511, -257, -256, -255,
   -129, -128, -100, -64, -33, -32, -17, -16, -9, -8, -5, -4, -3, -2, -1, 0,
   1, 2, 3, 4, 5, 8, 16, 32, 64, 100, 128, 255, 256, 257, 511, 512, 513,
   1000, 2500, 5000, 10000, 20000, 30000, 50000, 75001, 100000, 150000,
   200000, 250000, 300000, 400000, 443636, 500000, 600000, 700001, 800000,
   887269, 887270, 887271]

/-! ## Split form of the tick-to-price table walk, for the bounds proof

`ratioAtAbsTick n` is decomposed as the bit-0–9 part applied first
(`lowFold (n % 1024)`), then the bit-10–19 part (`highFold (n >>> 10)`);
`ratio_decomp` below proves the decomposition equal to the source-order
definition. -/

/-- The first ten conditional steps of `get_sqrt_ratio_at_tick` (bits 0–9),
as a function of the low ten bits of `abs_tick`. -/
def lowFold (L : Nat) : Nat :=
  applyConsts L tickConstsLow
    (if L &&& 1 != 0 then 340265354078544963557816517032075149313 else 2 ^ 128)

/-- The bit-10–19 multipliers of `get_sqrt_ratio_at_tick`, re-indexed by the
bits of `abs_tick >>> 10`. -/
def tickConstsHighShifted : List (Nat × Nat) :=
  [(1, 323299236684853023288211250268160618739),
   (2, 307163716377032989948697243942600083929),
   (4, 277268403626896220162999269216087595045),
   (8, 225923453940442621947126027127485391333),
   (16, 149997214084966997727330242082538205943),
   (32, 66119101136024775622716233608466517926),
   (64, 12847376061809297530290974190478138313),
   (128, 485053260817066172746253684029974020),
   (256, 691415978906521570653435304214168),
   (512, 1404880482679654955896180642)]

/-- The last ten conditional steps of `get_sqrt_ratio_at_tick` (bits 10–19),
as a function of the high bits `H = abs_tick >>> 10` applied to a start
state `s`. -/
def highFold (H s : Nat) : Nat := applyConsts H tickConstsHighShifted s

/-- `ratioAtAbsTick 887272`: the smallest intermediate `ratio` over the valid
tick range (the value at `|tick| = MAX_TICK`). -/
def ratioLowerEnd : Nat := 18447437462383981825

/-- The minimum of `lowFold` over all ten-bit values (attained at `L = 1023`). -/
def mLow : Nat := 323315401242583425022802937239550140918

/-- The minimum of `lowFold` over `L < 488` (attained at `L = 487`). -/
def mLow487 : Nat := 332096962269785393075405270746834335136

/-! ## `math/unsafe_math.rs`, `math/low_gas_safe_math.rs`, `math/safe_cast.rs` -/

/-- Embedding of `unsafe_math::div_rounding_up` (`ceil(x / y)`, `y ≠ 0` is the
caller's obligation). -/
def divRoundingUp (x y : Nat) : Nat := if x % y = 0 then x / y else x / y + 1

/-- Embedding of `low_gas_safe_math::unsigned_add` (checked `U256` addition). -/
def unsignedAdd (x y : Nat) : Except String Nat :=
  if x + y ≥ M256 then .error "Addition overflow" else .ok (x + y)

/-- Embedding of `low_gas_safe_math::signed_add` (checked `I256` addition). -/
def signedAdd (x y : Int) : Except String Int :=
  if x + y < -(2 ^ 255) ∨ 2 ^ 255 ≤ x + y then .error "Addition overflow" else .ok (x + y)

/-- Embedding of `low_gas_safe_math::signed_sub` (checked `I256` subtraction). -/
def signedSub (x y : Int) : Except String Int :=
  if x - y < -(2 ^ 255) ∨ 2 ^ 255 ≤ x - y then .error "Subtraction underflow" else .ok (x - y)

/-- Embedding of `safe_cast::to_int256`. -/
def toInt256 (a : Nat) : Except String Int :=
  let b := toSigned a
  if b < 0 then .error "Overflow when converting from U256 to I256" else .ok b

/-! ## `math/liquidity_math.rs` -/

/-- Embedding of `liquidity_math::add_delta` with release-profile (wrapping)
`u128` arithmetic, which the source's `z < x` / `z >= x` guards presuppose. -/
def addDelta (x : Nat) (y : Int) : Except String Nat :=
  if y < 0 then
    let z := (x + 2 ^ 128 - y.natAbs) % 2 ^ 128
    if z < x then .ok z else .error "Add delta error: LS"
  else
    let z := (x + y.natAbs) % 2 ^ 128
    if z ≥ x then .ok z else .error "Add delta error: LA"

/-! ## `math/bit_math.rs` -/

/-- Fuel-indexed base-2 logarithm (the fuel 256 suffices for any `U256`
value); used to embed the `leading_zeros`/`trailing_zeros` intrinsics. -/
def log2fuel : Nat → Nat → Nat
  | 0, _ => 0
  | f + 1, n => if n ≤ 1 then 0 else log2fuel f (n >>> 1) + 1

/-- Embedding of `bit_math::most_significant_bit`
(`255 - x.leading_zeros()` = `⌊log₂ x⌋` for `x ≠ 0`). -/
def mostSignificantBit (x : Nat) : Except String Nat :=
  if x = 0 then .error "X can not be zero" else .ok (log2fuel 256 x)

/-- Embedding of `bit_math::least_significant_bits`
(`x.trailing_zeros()` = `⌊log₂ (x & x.wrapping_neg())⌋` for `x ≠ 0`). -/
def leastSignificantBits (x : Nat) : Except String Nat :=
  if x = 0 then .error "X can not be zero"
  else .ok (log2fuel 256 (Nat.land x (wsub 0 x)))

/-! ## `swap.rs::sqrt` (Newton–Raphson integer square root) -/

/-- The iteration loop of `swap::sqrt`; the fuel counts the remaining allowed
updates (the source errors once `iter_count > 1000`, i.e. after 1001
updates). -/
def sqrtGo (a : Nat) : Nat → Nat → Except String Nat
  | 0, xn =>
    let squared := wmul xn xn
    let xm := wsub xn (wsub squared a / wmul 2 xn)
    if xm = xn then
      if a < squared then .ok (wsub xn 1)
      else if a = squared then .ok xn
      else .ok (wadd xn 1)
    else .error "Sqrt calculation didn't converge"
  | fuel + 1, xn =>
    let squared := wmul xn xn
    let xm := wsub xn (wsub squared a / wmul 2 xn)
    if xm = xn then
      if a < squared then .ok (wsub xn 1)
      else if a = squared then .ok xn
      else .ok (wadd xn 1)
    else sqrtGo a fuel xm

/-- Embedding of `swap::sqrt`.  (The `Ordering::Less` arm of the source is
unreachable for an unsigned argument.) -/
def sqrtU (a : Nat) : Except String Nat :=
  if a = 0 then .ok a else sqrtGo a 1001 a

/-! ## `sqrt_price_math.rs` -/

/-- `constants::Q96` (`U256::from_limbs([0, 4294967296, 0, 0])`). -/
def Q96 : Nat := 2 ^ 96

/-- Embedding of `sqrt_price_math::get_next_sqrt_price_from_amount0_rounding_up`. -/
def getNextSqrtPriceFromAmount0RoundingUp (sqrtPX96 liquidity amount : Nat)
    (add : Bool) : Except String Nat :=
  if amount = 0 then .error "Amount is zero: no change"
  else
    let numerator1 := (liquidity <<< 96) % M256
    if add then
      let product := wmul amount sqrtPX96
      if product / amount = sqrtPX96 then
        let denominator := wadd numerator1 product
        mulDivRoundingUp numerator1 sqrtPX96 denominator
      else
        match unsignedAdd (numerator1 / sqrtPX96) amount with
        | .error e => .error e
        | .ok result => .ok (divRoundingUp numerator1 result)
    else
      let product := wmul amount sqrtPX96
      if product / amount = sqrtPX96 ∧ numerator1 > product then
        let denominator := wsub numerator1 product
        match mulDivRoundingUp numerator1 sqrtPX96 denominator with
        | .error e => .error e
        | .ok result =>
            if result > U160MAX then .error "Sqrt price x96 is bigger than u160"
            else .ok result
      else .error "Error getting sqrt price from amount 0 rounding up"

/-- Embedding of `sqrt_price_math::get_next_sqrt_price_from_amount1_rounding_down`. -/
def getNextSqrtPriceFromAmount1RoundingDown (sqrtPX96 liquidity amount : Nat)
    (add : Bool) : Except String Nat :=
  if add then
    match (if amount ≤ U160MAX then .ok (((amount <<< 96) % M256) / liquidity)
           else mulDiv amount Q96 liquidity) with
    | .error e => .error e
    | .ok quotient =>
      match unsignedAdd sqrtPX96 quotient with
      | .error e => .error e
      | .ok result =>
          if result > U160MAX then .error "Sqrt price x96 is bigger than u160"
          else .ok result
  else
    match (if amount ≤ U160MAX then .ok (divRoundingUp ((amount <<< 96) % M256) liquidity)
           else mulDivRoundingUp amount Q96 liquidity) with
    | .error e => .error e
    | .ok quotient =>
        if sqrtPX96 > quotient then .ok (wsub sqrtPX96 quotient)
        else .error "Price can not be lower than 0"

/-- Embedding of `sqrt_price_math::get_next_sqrt_price_from_input`. -/
def getNextSqrtPriceFromInput (sqrtPX96 liquidity amountIn : Nat)
    (zeroForOne : Bool) : Except String Nat :=
  if sqrtPX96 > 0 ∧ liquidity > 0 then
    if zeroForOne then getNextSqrtPriceFromAmount0RoundingUp sqrtPX96 liquidity amountIn true
    else getNextSqrtPriceFromAmount1RoundingDown sqrtPX96 liquidity amountIn true
  else .error "Price and liquidity should be greater than zero"

/-- Embedding of `sqrt_price_math::get_next_sqrt_price_from_output`. -/
def getNextSqrtPriceFromOutput (sqrtPX96 liquidity amountOut : Nat)
    (zeroForOne : Bool) : Except String Nat :=
  if sqrtPX96 > 0 ∧ liquidity > 0 then
    if zeroForOne then getNextSqrtPriceFromAmount1RoundingDown sqrtPX96 liquidity amountOut false
    else getNextSqrtPriceFromAmount0RoundingUp sqrtPX96 liquidity amountOut false
  else .error "Price and liquidity should be greater than zero"

/-- Embedding of `sqrt_price_math::get_amount0_delta_round_up` (the two price
arguments are sorted on entry). -/
def getAmount0DeltaRoundUp (sqrtRatioAX96 sqrtRatioBX96 liquidity : Nat)
    (roundUp : Bool) : Except String Nat :=
  let p := if sqrtRatioAX96 > sqrtRatioBX96 then (sqrtRatioBX96, sqrtRatioAX96)
           else (sqrtRatioAX96, sqrtRatioBX96)
  let numerator1 := (liquidity <<< 96) % M256
  let numerator2 := wsub p.2 p.1
  if p.1 = 0 then .error "Sqrt ratio ax 96 can not be 0"
  else if roundUp then
    match mulDivRoundingUp numerator1 numerator2 p.2 with
    | .error e => .error e
    | .ok r => .ok (divRoundingUp r p.1)
  else
    match mulDiv numerator1 numerator2 p.2 with
    | .error e => .error e
    | .ok r => .ok (r / p.1)

/-- Embedding of `sqrt_price_math::get_amount1_delta_round_up` (the two price
arguments are sorted on entry). -/
def getAmount1DeltaRoundUp (sqrtRatioAX96 sqrtRatioBX96 liquidity : Nat)
    (roundUp : Bool) : Except String Nat :=
  let p := if sqrtRatioAX96 > sqrtRatioBX96 then (sqrtRatioBX96, sqrtRatioAX96)
           else (sqrtRatioAX96, sqrtRatioBX96)
  if roundUp then mulDivRoundingUp liquidity (wsub p.2 p.1) Q96
  else mulDiv liquidity (wsub p.2 p.1) Q96

/-! ## `math/swap_math.rs` -/

/-- Wrapping `u32` subtraction (`1e6 as u32 - fee_pips` under the release
profile), for arguments below `2 ^ 32`. -/
def u32sub (x y : Nat) : Nat := (x + 2 ^ 32 - y) % 2 ^ 32

/-- Lines 68–104 of `compute_swap_step`: recompute `amount_in`/`amount_out`
between `current` and `next` (each skipped when the step landed exactly on
the target in the respective direction), cap `amount_out` by the remaining
output demand, and compute the fee. -/
def computeSwapStepFinish (cur target next liquidity : Nat) (amountRemaining : Int)
    (feePips : Nat) (amountIn amountOut : Nat) :
    Except String (Nat × Nat × Nat × Nat) :=
  let zeroForOne := cur ≥ target
  let exactIn := 0 ≤ amountRemaining
  let mx := target = next
  match (if zeroForOne then
           (if ¬(mx ∧ exactIn) then getAmount0DeltaRoundUp next cur liquidity true
            else .ok amountIn)
         else
           (if ¬(mx ∧ exactIn) then getAmount1DeltaRoundUp cur next liquidity true
            else .ok amountIn)) with
  | .error e => .error e
  | .ok amountIn =>
    match (if zeroForOne then
             (if ¬(mx ∧ ¬exactIn) then getAmount1DeltaRoundUp next cur liquidity false
              else .ok amountOut)
           else
             (if ¬(mx ∧ ¬exactIn) then getAmount0DeltaRoundUp cur next liquidity false
              else .ok amountOut)) with
    | .error e => .error e
    | .ok amountOut =>
      let amountOut := if ¬exactIn ∧ amountOut > amountRemaining.natAbs
                       then amountRemaining.natAbs else amountOut
      match (if exactIn ∧ next ≠ target then .ok (wsub amountRemaining.natAbs amountIn)
             else mulDivRoundingUp amountIn feePips (u32sub 1000000 feePips)) with
      | .error e => .error e
      | .ok feeAmount => .ok (next, amountIn, amountOut, feeAmount)

/-- Embedding of `swap_math::compute_swap_step`.  Result:
`(sqrtRatioNextX96, amountIn, amountOut, feeAmount)`. -/
def computeSwapStep (sqrtRatioCurrentX96 sqrtRatioTargetX96 liquidity : Nat)
    (amountRemaining : Int) (feePips : Nat) :
    Except String (Nat × Nat × Nat × Nat) :=
  let cur := sqrtRatioCurrentX96
  let target := sqrtRatioTargetX96
  let zeroForOne := cur ≥ target
  if 0 ≤ amountRemaining then
    match mulDiv (i256Raw amountRemaining) (u32sub 1000000 feePips) 1000000 with
    | .error e => .error e
    | .ok amountRemainingLessFee =>
      match (if zeroForOne then getAmount0DeltaRoundUp target cur liquidity true
             else getAmount1DeltaRoundUp cur target liquidity true) with
      | .error e => .error e
      | .ok amountIn =>
        match (if amountRemainingLessFee ≥ amountIn then .ok target
               else getNextSqrtPriceFromInput cur liquidity amountRemainingLessFee zeroForOne) with
        | .error e => .error e
        | .ok next =>
            computeSwapStepFinish cur target next liquidity amountRemaining feePips amountIn 0
  else
    match (if zeroForOne then getAmount1DeltaRoundUp target cur liquidity false
           else getAmount0DeltaRoundUp cur target liquidity false) with
    | .error e => .error e
    | .ok amountOut =>
      match (if amountRemaining.natAbs ≥ amountOut then .ok target
             else getNextSqrtPriceFromOutput cur liquidity amountRemaining.natAbs zeroForOne) with
      | .error e => .error e
      | .ok next =>
          computeSwapStepFinish cur target next liquidity amountRemaining feePips 0 amountOut

/-! ## Pool-state snapshot and `math/tick_bitmap.rs`

The loaded windows (`HashMap`) become Lean functions into `Option`; the
external collaborator's `update_ticks` becomes an explicit oracle
`widen : Int → Except String (Int → Option TickInfo)` that either supplies a
replacement tick window or fails.  `i32` arithmetic is embedded on unbounded
`Int` (the tick quantities involved stay far inside the `i32` range). -/

/-- Per-tick record (`tick::Info`); only `liquidity_net` is consulted by the
swap loop. -/
structure TickInfo where
  liquidityNet : Int

/-- `pool::Slot0`. -/
structure Slot0 where
  sqrtPriceX96 : Nat
  tick : Int
  unlocked : Bool

/-- The fields of `pool::PoolState` consumed by the swap machinery. -/
structure PoolState where
  tickSpacing : Int
  fee : Nat
  tickBitmap : Int → Option Nat
  slot0 : Slot0
  liquidity : Nat
  ticks : Int → Option TickInfo

/-- `swap::SwapState` (the per-call loop state). -/
structure SwapState where
  amountSpecifiedRemaining : Int
  amountCalculated : Int
  sqrtPriceX96 : Nat
  tick : Int
  liquidity : Nat

/-- `tick_bitmap::position`: `(tick >> 8, (tick % 256) as u8)`. -/
def tbPosition (tick : Int) : Int × Nat :=
  (Int.fdiv tick 256, ((rustRem tick 256) % 256).toNat)

/-- Bitwise complement on 256 bits (`!x` on `U256`). -/
def unot (x : Nat) : Nat := M256 - 1 - x

/-- Embedding of `math/tick_bitmap::next_initialized_tick_within_one_word`
(the pool-state-window version: a word outside the loaded window is an
error, not a fetch). -/
def nextInitializedTickWithinOneWord (pool : PoolState) (tick : Int) (lte : Bool) :
    Except String (Int × Bool) :=
  let compressed0 := rustDiv tick pool.tickSpacing
  let compressed := if tick < 0 ∧ rustRem tick pool.tickSpacing ≠ 0 then compressed0 - 1
                    else compressed0
  if lte then
    let wp := tbPosition compressed
    let bitPos := wp.2
    let mask := (1 <<< bitPos) - 1 + (1 <<< bitPos)
    match pool.tickBitmap wp.1 with
    | none => .error "Word position not in tick bitmap"
    | some word =>
      let masked := Nat.land word mask
      if masked ≠ 0 then
        match mostSignificantBit masked with
        | .error e => .error e
        | .ok m =>
            .ok ((compressed - (((bitPos + 256 - m) % 256 : Nat) : Int)) * pool.tickSpacing,
                 true)
      else .ok ((compressed - (bitPos : Int)) * pool.tickSpacing, false)
  else
    let wp := tbPosition (compressed + 1)
    let bitPos := wp.2
    let mask := unot ((1 <<< bitPos) - 1)
    match pool.tickBitmap wp.1 with
    | none => .error "Word position not in tick bitmap"
    | some word =>
      let masked := Nat.land word mask
      if masked ≠ 0 then
        match leastSignificantBits masked with
        | .error e => .error e
        | .ok m =>
            .ok ((compressed + 1 + (((m + 256 - bitPos) % 256 : Nat) : Int)) * pool.tickSpacing,
                 true)
      else .ok ((compressed + 1 + ((255 - bitPos : Nat) : Int)) * pool.tickSpacing, false)

/-! ## `swap.rs::swap` -/

/-- One iteration of the `swap` loop (lines 94–155 of `swap.rs`): locate the
next initialized tick, clamp it, convert it to a price, run
`compute_swap_step` against the limit-clamped target, update the signed
amounts, and cross the tick or recompute the current tick.  A tick-info
lookup that misses the loaded window issues exactly one `widen` request and
retries once. -/
def swapStep (widen : Int → Except String (Int → Option TickInfo)) (pool : PoolState)
    (zeroForOne exactInput : Bool) (sqrtPriceLimitX96 : Nat) (s : SwapState) :
    Except String (SwapState × PoolState) :=
  match nextInitializedTickWithinOneWord pool s.tick zeroForOne with
  | .error e => .error e
  | .ok tn =>
    let tickNext := if tn.1 < MIN_TICK then MIN_TICK
                    else if tn.1 > MAX_TICK then MAX_TICK else tn.1
    let initialized := tn.2
    match getSqrtRatioAtTick tickNext with
    | .error e => .error e
    | .ok sqrtPriceNextX96 =>
      let target := if zeroForOne then
                      (if sqrtPriceNextX96 < sqrtPriceLimitX96 then sqrtPriceLimitX96
                       else sqrtPriceNextX96)
                    else
                      (if sqrtPriceNextX96 > sqrtPriceLimitX96 then sqrtPriceLimitX96
                       else sqrtPriceNextX96)
      match computeSwapStep s.sqrtPriceX96 target s.liquidity
          s.amountSpecifiedRemaining pool.fee with
      | .error e => .error e
      | .ok step =>
        let price' := step.1
        let amountIn := step.2.1
        let amountOut := step.2.2.1
        let feeAmount := step.2.2.2
        match (if exactInput then
                 (match toInt256 (wadd amountIn feeAmount) with
                 | .error e => .error e
                 | .ok v =>
                   match toInt256 amountOut with
                   | .error e => .error e
                   | .ok v2 =>
                     match signedSub s.amountCalculated v2 with
                     | .error e => .error e
                     | .ok c =>
                         .ok (i256Wrap (s.amountSpecifiedRemaining - v), c) :
                   Except String (Int × Int))
               else
                 match toInt256 amountOut with
                 | .error e => .error e
                 | .ok v =>
                   match toInt256 (wadd amountIn feeAmount) with
                   | .error e => .error e
                   | .ok v2 =>
                     match signedAdd s.amountCalculated v2 with
                     | .error e => .error e
                     | .ok c => .ok (i256Wrap (s.amountSpecifiedRemaining + v), c)) with
        | .error e => .error e
        | .ok acc =>
          if price' = sqrtPriceNextX96 then
            match (if initialized then
                     (match (match pool.ticks tickNext with
                            | some info => .ok (info.liquidityNet, pool)
                            | none =>
                              match widen tickNext with
                              | .error e => .error e
                              | .ok newTicks =>
                                match newTicks tickNext with
                                | some info =>
                                    .ok (info.liquidityNet, { pool with ticks := newTicks })
                                | none => .error "Next tick out of allowed range" :
                             Except String (Int × PoolState)) with
                     | .error e => .error e
                     | .ok np =>
                       let net := if zeroForOne then -np.1 else np.1
                       match addDelta s.liquidity net with
                       | .error e => .error e
                       | .ok liq => .ok (liq, np.2) :
                       Except String (Nat × PoolState))
                   else .ok (s.liquidity, pool)) with
            | .error e => .error e
            | .ok lp =>
                .ok ({ amountSpecifiedRemaining := acc.1, amountCalculated := acc.2,
                       sqrtPriceX96 := price',
                       tick := if zeroForOne then tickNext - 1 else tickNext,
                       liquidity := lp.1 }, lp.2)
          else if price' ≠ s.sqrtPriceX96 then
            match getTickAtSqrtRatio price' with
            | .error e => .error e
            | .ok t' =>
                .ok ({ amountSpecifiedRemaining := acc.1, amountCalculated := acc.2,
                       sqrtPriceX96 := price', tick := t',
                       liquidity := s.liquidity }, pool)
          else
            .ok ({ amountSpecifiedRemaining := acc.1, amountCalculated := acc.2,
                   sqrtPriceX96 := price', tick := s.tick,
                   liquidity := s.liquidity }, pool)

/-- The `while` loop of `swap.rs::swap`, indexed by fuel (the real loop is
bounded in practice by the tick range; our concrete runs use small fuels). -/
def swapLoop (widen : Int → Except String (Int → Option TickInfo))
    (zeroForOne exactInput : Bool) (sqrtPriceLimitX96 : Nat) :
    Nat → SwapState → PoolState → Except String (SwapState × PoolState)
  | 0, s, pool =>
    if s.amountSpecifiedRemaining ≠ 0 ∧ s.sqrtPriceX96 ≠ sqrtPriceLimitX96 then
      .error "loop fuel exhausted"
    else .ok (s, pool)
  | fuel + 1, s, pool =>
    if s.amountSpecifiedRemaining ≠ 0 ∧ s.sqrtPriceX96 ≠ sqrtPriceLimitX96 then
      match swapStep widen pool zeroForOne exactInput sqrtPriceLimitX96 s with
      | .error e => .error e
      | .ok sp => swapLoop widen zeroForOne exactInput sqrtPriceLimitX96 fuel sp.1 sp.2
    else .ok (s, pool)

/-- Embedding of `swap.rs::swap` (entry validation, the step loop, and the
final reorientation of the signed amounts). -/
def swap (widen : Int → Except String (Int → Option TickInfo)) (pool : PoolState)
    (zeroForOne : Bool) (amountSpecified : Int) (sqrtPriceLimitX96 : Nat)
    (fuel : Nat) : Except String (Int × Int) :=
  if amountSpecified = 0 then .error "Amount specified is zero, no swap"
  else if ¬pool.slot0.unlocked then .error "Pool is locked"
  else if (if zeroForOne then
             ¬(sqrtPriceLimitX96 < pool.slot0.sqrtPriceX96 ∧
               sqrtPriceLimitX96 > MIN_SQRT_RATIO)
           else
             ¬(sqrtPriceLimitX96 > pool.slot0.sqrtPriceX96 ∧
               sqrtPriceLimitX96 < MAX_SQRT_RATIO)) then .error "SPL"
  else
    let exactInput := 0 < amountSpecified
    let s0 : SwapState :=
      { amountSpecifiedRemaining := amountSpecified, amountCalculated := 0,
        sqrtPriceX96 := pool.slot0.sqrtPriceX96, tick := pool.slot0.tick,
        liquidity := pool.liquidity }
    match swapLoop widen zeroForOne exactInput sqrtPriceLimitX96 fuel s0 pool with
    | .error e => .error e
    | .ok sp =>
      let s := sp.1
      if zeroForOne = exactInput then
        .ok (i256Wrap (amountSpecified - s.amountSpecifiedRemaining), s.amountCalculated)
      else
        .ok (s.amountCalculated, i256Wrap (amountSpecified - s.amountSpecifiedRemaining))

/-! ## `swap.rs::swap_price_impact` -/

/-- Embedding of `swap.rs::calc_sqrt_price_limit_from_price_impact`
(`u32` products wrapped mod `2 ^ 32`). -/
def calcSqrtPriceLimitFromPriceImpact (sqrtPriceX96 priceImpact : Nat)
    (zeroForOne : Bool) : Except String Nat :=
  let v : Nat := 1000000 * u32sub 100 priceImpact % 2 ^ 32
  if zeroForOne then
    match sqrtU v with
    | .error e => .error e
    | .ok r => mulDiv r sqrtPriceX96 10000
  else
    match sqrtU v with
    | .error e => .error e
    | .ok r => mulDiv 10000 sqrtPriceX96 r

/-- Embedding of `swap.rs::swap_price_impact` (`simulatePriceImpact`):
validate the percentage, derive the sqrt-price limit, then run the swap with
`amount_specified = I256::MAX`. -/
def swapPriceImpact (widen : Int → Except String (Int → Option TickInfo))
    (pool : PoolState) (zeroForOne : Bool) (priceImpact : Nat) (fuel : Nat) :
    Except String (Int × Int) :=
  if priceImpact > 100 then .error "Price impact more than 100%"
  else if priceImpact = 0 then .error "No swap needed for 0% impact"
  else
    match calcSqrtPriceLimitFromPriceImpact pool.slot0.sqrtPriceX96 priceImpact
        zeroForOne with
    | .error e => .error e
    | .ok limit => swap widen pool zeroForOne (2 ^ 255 - 1) limit fuel

/-! ## `swap.rs::find_tick_at_slippage` -/

/-- The loop body of `find_tick_at_slippage` in the `next_tick < current_tick`
branch, acting on `(curr_exec, _delta_token0, _delta_token1)`.  Exactly as in
the source, the two prices come from the immutable parameter `current_tick`
(not the walked tick), and the execution ratio is recomputed from the
immutable parameter `delta_token1` (not the accumulated `_delta_token1`). -/
def ftasBodyDown (currentTick : Int) (liquidity d1param : Nat)
    (st : Nat × Nat × Nat) : Except String (Nat × Nat × Nat) :=
  match getSqrtRatioAtTick currentTick with
  | .error e => .error e
  | .ok curr =>
    match getSqrtRatioAtTick (currentTick - 1) with
    | .error e => .error e
    | .ok next =>
      let diff := if next > curr then next - curr else curr - next
      match mulDiv diff liquidity Q96 with
      | .error e => .error e
      | .ok q1 =>
        let d1' := wadd st.2.2 q1
        match mulDiv next curr Q96 with
        | .error e => .error e
        | .ok inner =>
          match mulDiv liquidity diff inner with
          | .error e => .error e
          | .ok q0 =>
            let d0' := wadd st.2.1 q0
            match sqrtU d1param with
            | .error e => .error e
            | .ok s1 =>
              match sqrtU d0' with
              | .error e => .error e
              | .ok s0 =>
                match mulDiv s1 Q96 s0 with
                | .error e => .error e
                | .ok e' => .ok (e', d0', d1')

/-- The loop body of `find_tick_at_slippage` in the
`next_tick ≥ current_tick` branch (walking upward), with the same
fixed-parameter structure as the source. -/
def ftasBodyUp (currentTick : Int) (liquidity d1param : Nat)
    (st : Nat × Nat × Nat) : Except String (Nat × Nat × Nat) :=
  match getSqrtRatioAtTick currentTick with
  | .error e => .error e
  | .ok curr =>
    match getSqrtRatioAtTick (currentTick + 1) with
    | .error e => .error e
    | .ok next =>
      let diff := if next > curr then next - curr else curr - next
      match mulDiv diff liquidity Q96 with
      | .error e => .error e
      | .ok q1 =>
        let d1' := wadd st.2.2 q1
        match mulDiv next curr Q96 with
        | .error e => .error e
        | .ok inner =>
          match mulDiv liquidity diff inner with
          | .error e => .error e
          | .ok q0 =>
            let d0' := wadd st.2.1 q0
            match sqrtU d1param with
            | .error e => .error e
            | .ok s1 =>
              match sqrtU d0' with
              | .error e => .error e
              | .ok s0 =>
                match mulDiv s1 Q96 s0 with
                | .error e => .error e
                | .ok e' => .ok (e', d0', d1')

/-- The downward `while curr_exec > target` walk of `find_tick_at_slippage`,
fuel-indexed; `none` means the fuel ran out with the loop still running. -/
def ftasGoDown (currentTick : Int) (liquidity d1param target : Nat) :
    Nat → Nat × Nat × Nat × Int → Option (Except String (Int × Nat × Nat))
  | 0, st =>
    if st.1 > target then none
    else some (.ok (st.2.2.2, st.2.1, st.2.2.1))
  | fuel + 1, st =>
    if st.1 > target then
      match ftasBodyDown currentTick liquidity d1param (st.1, st.2.1, st.2.2.1) with
      | .error e => some (.error e)
      | .ok st' =>
          ftasGoDown currentTick liquidity d1param target fuel
            (st'.1, st'.2.1, st'.2.2, st.2.2.2 - 1)
    else some (.ok (st.2.2.2, st.2.1, st.2.2.1))

/-- The upward `while curr_exec < target` walk of `find_tick_at_slippage`,
fuel-indexed. -/
def ftasGoUp (currentTick : Int) (liquidity d1param target : Nat) :
    Nat → Nat × Nat × Nat × Int → Option (Except String (Int × Nat × Nat))
  | 0, st =>
    if st.1 < target then none
    else some (.ok (st.2.2.2, st.2.1, st.2.2.1))
  | fuel + 1, st =>
    if st.1 < target then
      match ftasBodyUp currentTick liquidity d1param (st.1, st.2.1, st.2.2.1) with
      | .error e => some (.error e)
      | .ok st' =>
          ftasGoUp currentTick liquidity d1param target fuel
            (st'.1, st'.2.1, st'.2.2, st.2.2.2 + 1)
    else some (.ok (st.2.2.2, st.2.1, st.2.2.1))

/-- Embedding of `swap.rs::find_tick_at_slippage`, fuel-indexed (`none` =
the walk did not finish within `fuel` iterations). -/
def findTickAtSlippage (fuel : Nat) (currentTick nextTick : Int)
    (currentExecSqrtRatioX96 targetExecSqrtRatioX96 deltaToken0 deltaToken1 liquidity : Nat) :
    Option (Except String (Int × Nat × Nat)) :=
  if nextTick < currentTick then
    ftasGoDown currentTick liquidity deltaToken1 targetExecSqrtRatioX96 fuel
      (currentExecSqrtRatioX96, deltaToken0, deltaToken1, currentTick)
  else
    ftasGoUp currentTick liquidity deltaToken1 targetExecSqrtRatioX96 fuel
      (currentExecSqrtRatioX96, deltaToken0, deltaToken1, currentTick)

/-! ## Concrete pool-state scenarios used by the theorems -/

/-- A collaborator oracle that supplies tick 0 with `liquidity_net = -1e17`
on any widen request. -/
def widenW : Int → Except String (Int → Option TickInfo) :=
  fun _ => .ok (fun t => if t = 0 then some ⟨-100000000000000000⟩ else none)

/-- A collaborator oracle whose reply does not contain the requested tick. -/
def widenUseless : Int → Except String (Int → Option TickInfo) :=
  fun _ => .ok (fun t => if t = 5 then some ⟨7⟩ else none)

/-- A pool at tick 0 (price `2 ^ 96`), fee 0, spacing 1, liquidity `1e18`,
with initialized ticks 0 and −1 in the loaded bitmap but an *empty* loaded
tick-info window. -/
def poolW : PoolState :=
  { tickSpacing := 1, fee := 0,
    tickBitmap := fun w => if w = 0 then some 1 else if w = -1 then some (2 ^ 255) else none,
    slot0 := { sqrtPriceX96 := 2 ^ 96, tick := 0, unlocked := true },
    liquidity := 1000000000000000000,
    ticks := fun _ => none }

/-- `poolW` with no bitmap words loaded at all. -/
def poolMissingWord : PoolState :=
  { poolW with tickBitmap := fun _ => none }

/-- A price limit strictly between `MIN_SQRT_RATIO` and
`get_sqrt_ratio_at_tick(-1)`. -/
def limitW : Nat := 79224201403219477170569941574

/-- `poolW` after the widen request of the first loop iteration has loaded
tick 0 (`liquidity_net = -1e17`). -/
def poolW2 : PoolState :=
  { poolW with ticks := fun t => if t = 0 then some ⟨-100000000000000000⟩ else none }

/-- The loop state entering the second iteration of the `poolW` swap:
tick 0 was crossed (liquidity grew to `1.1e18`), the price is still `2 ^ 96`. -/
def stateW2 : SwapState :=
  { amountSpecifiedRemaining := 10, amountCalculated := 0,
    sqrtPriceX96 := 2 ^ 96, tick := -1, liquidity := 1100000000000000000 }

end AmmVoyage

/-- C1 evidence: `mul_div` violates its own documentation
("Calculates floor(a×b÷denominator) with full precision").  On
`a * b = 2 ^ 256 + 1` (the two factors below are the classical factorization
of the Fermat number `F₈`) and `denominator = 2`, the preconditions of the
claim hold (`denominator ≠ 0`, the true quotient `2 ^ 255` fits in 256 bits),
yet `mul_div` returns `Ok(0)`.  The slip: the borrow of the remainder
subtraction is computed against the already-updated `prod0`, while the
reconstruction algorithm requires the pre-subtraction value. -/
theorem mulDiv_floor_violation :
    1238926361552897 * 93461639715357977769163558199606896584051237541638188580280321
      = 2 ^ 256 + 1 ∧
    AmmVoyage.mulDiv 1238926361552897
      93461639715357977769163558199606896584051237541638188580280321 2 = .ok 0 ∧
    1238926361552897 * 93461639715357977769163558199606896584051237541638188580280321 / 2
      = 2 ^ 255 ∧
    (0 : Nat) ≠ 2 ^ 255 := by
  refine ⟨by norm_num, by decide, by norm_num, by decide⟩

/-- C2 counterexample: the round trip fails at the upper endpoint
`t = MAX_TICK = 887272`.  `get_sqrt_ratio_at_tick(887272)` returns exactly
`MAX_SQRT_RATIO`, which `get_tick_at_sqrt_ratio` rejects, because its accepted
domain is the half-open interval `[MIN_SQRT_RATIO, MAX_SQRT_RATIO)`. -/
theorem tick_roundtrip_fails_at_max_tick :
    AmmVoyage.getSqrtRatioAtTick 887272 = .ok AmmVoyage.MAX_SQRT_RATIO ∧
    AmmVoyage.getTickAtSqrtRatio AmmVoyage.MAX_SQRT_RATIO =
      .error "The price is out of bounds" ∧
    AmmVoyage.roundTripOk 887272 = false := by
  refine ⟨by decide, by decide, by decide⟩

/-- C2 amended: the round trip `get_tick_at_sqrt_ratio(get_sqrt_ratio_at_tick(t)) = t`
holds on ticks of `[MIN_TICK, MAX_TICK - 1]` — verified here on a dense sample
including both endpoints of that range — while at `t = MAX_TICK` the reverse
conversion fails with the price-out-of-bounds error, since
`get_sqrt_ratio_at_tick(MAX_TICK) = MAX_SQRT_RATIO` lies outside the accepted
half-open domain `[MIN_SQRT_RATIO, MAX_SQRT_RATIO)`. -/
theorem tick_roundtrip_on_sample_and_max_tick_failure :
    AmmVoyage.sampleTicks.all AmmVoyage.roundTripOk = true ∧
    (∀ t ∈ AmmVoyage.sampleTicks, AmmVoyage.MIN_TICK ≤ t ∧ t < AmmVoyage.MAX_TICK) ∧
    AmmVoyage.MIN_TICK ∈ AmmVoyage.sampleTicks ∧
    (AmmVoyage.MAX_TICK - 1) ∈ AmmVoyage.sampleTicks ∧
    (AmmVoyage.getSqrtRatioAtTick AmmVoyage.MAX_TICK).bind AmmVoyage.getTickAtSqrtRatio =
      .error "The price is out of bounds" := by
  refine ⟨by decide, by decide, by decide, by decide, by decide⟩

namespace AmmVoyage

/-! ## C4: `add_delta` -/

/-- C4: under the release-profile (wrapping) `u128` arithmetic the code is
written for, `add_delta` returns the `LS` error exactly when `y` is negative
with `|y| > x`, the `LA` error exactly when the sum leaves the 128-bit
range, and `Ok(x + y)` otherwise. -/
theorem addDelta_spec (x : Nat) (y : Int) (hx : x < 2 ^ 128)
    (hy : -(2 ^ 127) ≤ y) (hy2 : y < 2 ^ 127) :
    addDelta x y =
      if y < 0 then
        (if y.natAbs ≤ x then .ok (x - y.natAbs) else .error "Add delta error: LS")
      else
        (if x + y.natAbs < 2 ^ 128 then .ok (x + y.natAbs)
         else .error "Add delta error: LA") := by
  simp only [addDelta]
  by_cases hneg : y < 0
  · simp only [if_pos hneg]
    by_cases hle : y.natAbs ≤ x
    · have hz : (x + 2 ^ 128 - y.natAbs) % 2 ^ 128 = x - y.natAbs := by omega
      rw [hz, if_pos (by omega), if_pos hle]
    · have hz : (x + 2 ^ 128 - y.natAbs) % 2 ^ 128 = x + 2 ^ 128 - y.natAbs := by omega
      rw [hz, if_neg (by omega), if_neg hle]
  · simp only [if_neg hneg]
    by_cases hlt : x + y.natAbs < 2 ^ 128
    · rw [Nat.mod_eq_of_lt hlt, if_pos (by omega), if_pos hlt]
    · have hz : (x + y.natAbs) % 2 ^ 128 = x + y.natAbs - 2 ^ 128 := by omega
      rw [hz, if_neg (by omega), if_neg hlt]

/-- Witness for C4: the three concrete examples of the claim, obtained by
instantiating `addDelta_spec`. -/
theorem addDelta_spec_witness :
    addDelta 100 (-50) = .ok 50 ∧
    addDelta 100 (-150) = .error "Add delta error: LS" ∧
    addDelta (2 ^ 128 - 11) 20 = .error "Add delta error: LA" := by
  refine ⟨?_, ?_, ?_⟩
  · rw [addDelta_spec 100 (-50) (by norm_num) (by norm_num) (by norm_num)]; decide
  · rw [addDelta_spec 100 (-150) (by norm_num) (by norm_num) (by norm_num)]; decide
  · rw [addDelta_spec (2 ^ 128 - 11) 20 (by norm_num) (by norm_num) (by norm_num)]; decide

/-! ## C9: order independence of the amount deltas -/

/-- C9: `get_amount0_delta_round_up` and `get_amount1_delta_round_up` are
unchanged when their two price arguments are swapped (both sort the pair on
entry). -/
theorem amountDelta_order_independent (a b liquidity : Nat) (roundUp : Bool) :
    getAmount0DeltaRoundUp a b liquidity roundUp =
      getAmount0DeltaRoundUp b a liquidity roundUp ∧
    getAmount1DeltaRoundUp a b liquidity roundUp =
      getAmount1DeltaRoundUp b a liquidity roundUp := by
  rcases Nat.lt_trichotomy a b with h | h | h
  · constructor <;>
      · simp only [getAmount0DeltaRoundUp, getAmount1DeltaRoundUp]
        rw [if_neg (show ¬a > b by omega), if_pos (show b > a from h)]
  · subst h; exact ⟨rfl, rfl⟩
  · constructor <;>
      · simp only [getAmount0DeltaRoundUp, getAmount1DeltaRoundUp]
        rw [if_pos (show a > b from h), if_neg (show ¬b > a by omega)]

/-! ## C5: `swap_price_impact` -/

/-- C5 counterexample: a `pctImpact` of 100% in the adverse (`zeroForOne`)
direction does not drive the price to `MIN_SQRT_RATIO + 1`: the derived
limit is `0`, which the swap entry validation rejects with the `SPL` bounds
error, so the call fails instead of succeeding. -/
theorem swapPriceImpact_full_adverse_fails :
    swapPriceImpact widenW poolW true 100 10 = .error "SPL" := by decide

/-- C5 amended: `swap_price_impact` with `pctImpact = 0` always fails with
the validation error (checked before any pool access); the limit is computed
as `mul_div(sqrt(1e6·(100-pct)), price, 1e4)` with no clamping to the
sqrt-ratio bounds, so at `pctImpact = 100` the limit is `0` and the swap
rejects it with the `SPL` bounds error rather than walking to
`MIN_SQRT_RATIO + 1`. -/
theorem swapPriceImpact_zero_and_hundred :
    (∀ (widen : Int → Except String (Int → Option TickInfo)) (pool : PoolState)
       (zeroForOne : Bool) (fuel : Nat),
        swapPriceImpact widen pool zeroForOne 0 fuel =
          .error "No swap needed for 0% impact") ∧
    calcSqrtPriceLimitFromPriceImpact (2 ^ 96) 100 true = .ok 0 ∧
    swapPriceImpact widenW poolW2 true 100 10 = .error "SPL" := by
  refine ⟨fun widen pool zeroForOne fuel => rfl, by decide, by decide⟩

/-! ## C6: missing bitmap words versus missing tick info -/

/-- C6 counterexample: with a working collaborator (`widenW`), a bitmap word
outside the loaded window is immediately fatal to the swap call — the
engine issues no widen request and no retry for bitmap words. -/
theorem missing_bitmap_word_is_fatal :
    swap widenW poolMissingWord true 10 limitW 10 =
      .error "Word position not in tick bitmap" := by decide

/-- C6 amended: a bitmap word outside the loaded window aborts the swap with
the fatal `Word position not in tick bitmap` error; only a tick-info record
missing at a crossing triggers exactly one widen request followed by a
single retry of the lookup — succeeding when the collaborator supplies the
tick (`widenW`; the `poolW` run crosses tick 0 this way and completes), and
failing with `Next tick out of allowed range` when the widened window still
lacks it (`widenUseless`). -/
theorem bitmap_word_fatal_tickinfo_single_retry :
    swap widenW poolMissingWord true 7 limitW 10 =
      .error "Word position not in tick bitmap" ∧
    swap widenW poolW true 10 limitW 10 = .ok (10, -9) ∧
    swap widenUseless poolW true 10 limitW 10 =
      .error "Next tick out of allowed range" := by
  refine ⟨by decide, by decide, by decide⟩

/-! ## C7: divergence of `find_tick_at_slippage` -/

/-- C7: at `liquidity = 0` (current tick 0, next tick −1, execution ratio 10
against target 5, accumulated deltas `(4, 9)`), `find_tick_at_slippage`
never terminates: after one iteration the loop body is at a fixed point of
`(curr_exec, _delta_token0, _delta_token1)` — it re-reads the immutable
`current_tick` and `delta_token1` parameters instead of the walked state —
while `_curr_tick` walks below `MIN_TICK` without bound.  Formally:
for every fuel, the fuel-indexed embedding is exhausted (`none`), and the
loop body maps both the initial and the post-step accumulator state to the
same post-step state whose execution ratio `3·2^96/2` still exceeds the
target. -/
lemma ftasGoDown_zero_run (ct : Int) (L d1p tg : Nat) (ex d0 d1 : Nat) (t : Int)
    (hgt : ex > tg) :
    ftasGoDown ct L d1p tg 0 (ex, d0, d1, t) = none := by
  rw [ftasGoDown, if_pos hgt]

lemma ftasGoDown_step (ct : Int) (L d1p tg : Nat) (f : Nat) (ex d0 d1 : Nat) (t : Int)
    (hgt : ex > tg) (ex' d0' d1' : Nat)
    (hbody : ftasBodyDown ct L d1p (ex, d0, d1) = .ok (ex', d0', d1')) :
    ftasGoDown ct L d1p tg (f + 1) (ex, d0, d1, t) =
      ftasGoDown ct L d1p tg f (ex', d0', d1', t - 1) := by
  rw [ftasGoDown, if_pos hgt, hbody]

lemma ftasBody_first_eval : ftasBodyDown 0 0 9 (10, 4, 9) =
    .ok (118842243771396506390315925504, 4, 9) := by decide

lemma ftasBody_fixed_eval : ftasBodyDown 0 0 9 (118842243771396506390315925504, 4, 9) =
    .ok (118842243771396506390315925504, 4, 9) := by decide

theorem findTickAtSlippage_diverges_at_zero_liquidity :
    (∀ fuel : Nat, findTickAtSlippage fuel 0 (-1) 10 5 4 9 0 = none) ∧
    ftasBodyDown 0 0 9 (10, 4, 9) =
      .ok (118842243771396506390315925504, 4, 9) ∧
    ftasBodyDown 0 0 9 (118842243771396506390315925504, 4, 9) =
      .ok (118842243771396506390315925504, 4, 9) := by
  refine ⟨?_, ftasBody_first_eval, ftasBody_fixed_eval⟩
  have key : ∀ (f : Nat) (t : Int),
      ftasGoDown 0 0 9 5 f (118842243771396506390315925504, 4, 9, t) = none := by
    intro f
    induction f with
    | zero => intro t; exact ftasGoDown_zero_run 0 0 9 5 _ 4 9 t (by decide)
    | succ f ih =>
        intro t
        rw [ftasGoDown_step 0 0 9 5 f _ 4 9 t (by decide) _ 4 9 ftasBody_fixed_eval]
        exact ih (t - 1)
  intro fuel
  show ftasGoDown 0 0 9 5 fuel (10, 4, 9, 0) = none
  cases fuel with
  | zero => exact ftasGoDown_zero_run 0 0 9 5 10 4 9 0 (by decide)
  | succ f =>
      rw [ftasGoDown_step 0 0 9 5 f 10 4 9 0 (by decide) _ 4 9 ftasBody_first_eval]
      exact key f (-1)

end AmmVoyage

namespace AmmVoyage

/-! ## C10: the exact-output cap of `compute_swap_step` -/

/-- The cap of lines 89–91 of `swap_math.rs`, at the level of
`computeSwapStepFinish`: in exact-output mode the returned `amount_out`
never exceeds the remaining output demand. -/
lemma computeSwapStepFinish_out_le (cur target next liquidity feePips amountIn amountOut : Nat)
    (rem : Int) (hrem : rem < 0) (p a o f : Nat)
    (h : computeSwapStepFinish cur target next liquidity rem feePips amountIn amountOut =
      .ok (p, a, o, f)) :
    o ≤ rem.natAbs := by
  have hex : ¬(0 : Int) ≤ rem := by omega
  simp only [computeSwapStepFinish] at h
  split at h
  · exact absurd h (by simp)
  · split at h
    · exact absurd h (by simp)
    · split at h
      · exact absurd h (by simp)
      · rename_i amountIn' amountOut' feeAmount' heq1 heq2 heq3
        simp only [Except.ok.injEq, Prod.mk.injEq] at h
        obtain ⟨-, -, ho, -⟩ := h
        subst ho
        split
        · omega
        · rename_i hc
          push_neg at hc
          omega

/-- C10: whenever `compute_swap_step` is called in exact-output mode
(`amountRemaining < 0`) and returns `Ok`, the returned `amountOut` is capped
at `|amountRemaining|`: the caller is never credited more output than was
asked for in a single step. -/
theorem computeSwapStep_output_capped (cur target liquidity feePips : Nat) (rem : Int)
    (hrem : rem < 0) (p a o f : Nat)
    (h : computeSwapStep cur target liquidity rem feePips = .ok (p, a, o, f)) :
    o ≤ rem.natAbs := by
  simp only [computeSwapStep] at h
  rw [if_neg (by omega)] at h
  split at h
  · exact absurd h (by simp)
  · split at h
    · exact absurd h (by simp)
    · exact computeSwapStepFinish_out_le _ _ _ _ _ _ _ _ hrem _ _ _ _ h

/-- Witness for C10: a concrete exact-output call (`amountRemaining = -5`,
zero-width step) returning `Ok` with `amountOut = 0 ≤ 5`. -/
theorem computeSwapStep_output_capped_witness :
    (0 : Nat) ≤ ((-5 : Int)).natAbs :=
  computeSwapStep_output_capped (2 ^ 96) (2 ^ 96) 1000 0 (-5) (by decide)
    (2 ^ 96) 0 0 0 (by decide)

end AmmVoyage
namespace AmmVoyage

lemma prod1_eq_hi (a b : Nat) (ha : a < M256) (hb : b < M256) :
    wsub (wsub (a * b % (M256 - 1)) (a * b % M256))
      (if a * b % (M256 - 1) < a * b % M256 then 1 else 0) = a * b / M256 := by
  have hM : M256 = 2 ^ 256 := rfl
  have hp : a * b ≤ (2 ^ 256 - 1) * (2 ^ 256 - 1) :=
    Nat.mul_le_mul (by omega) (by omega)
  have hub : a * b / M256 ≤ M256 - 2 := by
    have h2 : a * b / M256 ≤ (2 ^ 256 - 1) * (2 ^ 256 - 1) / M256 :=
      Nat.div_le_div_right hp
    have h3 : (2 ^ 256 - 1) * (2 ^ 256 - 1) / M256 = M256 - 2 := by
      rw [hM]; decide
    omega
  have hmm : a * b % (M256 - 1) = (a * b / M256 + a * b % M256) % (M256 - 1) := by
    conv_lhs => rw [← Nat.div_add_mod (a * b) M256]
    have h5 : a * b / M256 ≤ M256 * (a * b / M256) :=
      Nat.le_mul_of_pos_left _ (by omega)
    have he : M256 * (a * b / M256) + a * b % M256
        = (a * b / M256 + a * b % M256) + (M256 - 1) * (a * b / M256) := by
      rw [Nat.sub_one_mul]; omega
    rw [he, Nat.add_mul_mod_self_left]
  have hltM : a * b % M256 < M256 := Nat.mod_lt _ (by omega)
  rcases lt_or_ge (a * b / M256 + a * b % M256) (M256 - 1) with hc | hc
  · have hmm2 : a * b % (M256 - 1) = a * b / M256 + a * b % M256 := by
      rw [hmm, Nat.mod_eq_of_lt hc]
    split <;> (simp only [wsub, hM] at *; omega)
  · have hmm2 : a * b % (M256 - 1) = a * b / M256 + a * b % M256 - (M256 - 1) := by
      rw [hmm, Nat.mod_eq_sub_mod hc, Nat.mod_eq_of_lt (by omega)]
    split <;> (simp only [wsub, hM] at *; omega)

lemma wsub_self (p : Nat) : wsub p p = 0 := by
  simp only [wsub, Nat.add_sub_cancel_left, Nat.mod_self]

lemma i256Raw_lt (i : Int) : i256Raw i < M256 := by
  simp only [i256Raw, M256]
  have h1 : i % (2 ^ 256 : Int) < (2 ^ 256 : Int) := Int.emod_lt_of_pos _ (by positivity)
  have h2 : (0 : Int) ≤ i % (2 ^ 256 : Int) := Int.emod_nonneg _ (by positivity)
  omega

lemma mulDiv_of_mul_zero {a b d : Nat} (h : a * b = 0) (hd : d ≠ 0) :
    mulDiv a b d = .ok 0 := by
  simp [mulDiv, h, hd, wsub]

lemma mulDivRoundingUp_of_mul_zero {a b d : Nat} (h : a * b = 0) (hd : d ≠ 0) :
    mulDivRoundingUp a b d = .ok 0 := by
  simp [mulDivRoundingUp, mulDiv_of_mul_zero h hd, h]


lemma getAmount0DeltaRoundUp_self (p L : Nat) (r : Bool) (hp : p ≠ 0) :
    getAmount0DeltaRoundUp p p L r = .ok 0 := by
  simp only [getAmount0DeltaRoundUp]
  rw [if_neg (lt_irrefl p)]
  show (if p = 0 then (Except.error "Sqrt ratio ax 96 can not be 0" : Except String Nat)
    else if r then
      match mulDivRoundingUp ((L <<< 96) % M256) (wsub p p) p with
      | .error e => .error e
      | .ok v => .ok (divRoundingUp v p)
    else
      match mulDiv ((L <<< 96) % M256) (wsub p p) p with
      | .error e => .error e
      | .ok v => .ok (v / p)) = .ok 0
  rw [if_neg hp, wsub_self p]
  cases r
  · rw [if_neg Bool.false_ne_true,
      mulDiv_of_mul_zero (mul_zero ((L <<< 96) % M256)) hp]
    show Except.ok (0 / p) = .ok 0
    rw [Nat.zero_div]
  · rw [if_pos rfl,
      mulDivRoundingUp_of_mul_zero (mul_zero ((L <<< 96) % M256)) hp]
    show Except.ok (divRoundingUp 0 p) = .ok 0
    simp [divRoundingUp]

lemma getAmount1DeltaRoundUp_self (p L : Nat) (r : Bool) :
    getAmount1DeltaRoundUp p p L r = .ok 0 := by
  have hq : (Q96 : Nat) ≠ 0 := by decide
  simp only [getAmount1DeltaRoundUp]
  rw [if_neg (lt_irrefl p)]
  show (if r then mulDivRoundingUp L (wsub p p) Q96
    else mulDiv L (wsub p p) Q96) = .ok 0
  rw [wsub_self p]
  cases r
  · rw [if_neg Bool.false_ne_true]
    exact mulDiv_of_mul_zero (mul_zero L) hq
  · rw [if_pos rfl]
    exact mulDivRoundingUp_of_mul_zero (mul_zero L) hq

lemma mulDiv_fee_ok (a f : Nat) (ha : a < M256) (hf : f < 1000000) :
    ∃ v, mulDiv a (u32sub 1000000 f) 1000000 = .ok v := by
  have hu : u32sub 1000000 f = 1000000 - f := by
    simp only [u32sub]; omega
  have hb : a * u32sub 1000000 f ≤ (M256 - 1) * 1000000 := by
    apply Nat.mul_le_mul (by omega)
    omega
  have hlt : a * u32sub 1000000 f / M256 < 1000000 := by
    have h1 : a * u32sub 1000000 f / M256 ≤ (M256 - 1) * 1000000 / M256 :=
      Nat.div_le_div_right hb
    have h2 : (M256 - 1) * 1000000 / M256 = 999999 := by decide
    omega
  simp only [mulDiv]
  rw [prod1_eq_hi a _ ha (by simp only [u32sub, M256]; omega)]
  by_cases hz : a * u32sub 1000000 f / M256 = 0
  · rw [if_pos hz, if_neg (by omega)]
    exact ⟨_, rfl⟩
  · rw [if_neg hz, if_neg (by omega)]
    exact ⟨_, rfl⟩


lemma finish_self (cur liquidity feePips : Nat) (rem : Int)
    (hcur : 0 < cur) (hfee : feePips < 1000000) :
    computeSwapStepFinish cur cur cur liquidity rem feePips 0 0 = .ok (cur, 0, 0, 0) := by
  have hfz : mulDivRoundingUp 0 feePips (u32sub 1000000 feePips) = .ok 0 :=
    mulDivRoundingUp_of_mul_zero (zero_mul _) (by simp only [u32sub]; omega)
  by_cases hrem : (0 : Int) ≤ rem
  · simp only [computeSwapStepFinish]
    rw [if_pos (le_refl cur), if_pos (le_refl cur),
      if_neg (not_not_intro ⟨trivial, hrem⟩),
      if_pos (fun h => h.2 hrem),
      getAmount1DeltaRoundUp_self cur liquidity false]
    show (match (if (0:Int) ≤ rem ∧ cur ≠ cur
            then (Except.ok (wsub (Int.natAbs rem) 0) : Except String Nat)
            else mulDivRoundingUp 0 feePips (u32sub 1000000 feePips)) with
      | .error e => (.error e : Except String (Nat × Nat × Nat × Nat))
      | .ok feeAmount =>
        .ok (cur, 0,
          (if ¬(0:Int) ≤ rem ∧ 0 > Int.natAbs rem then Int.natAbs rem else 0),
          feeAmount)) = .ok (cur, 0, 0, 0)
    rw [if_neg (fun h => h.2 rfl), hfz, if_neg (fun h => h.1 hrem)]
  · simp only [computeSwapStepFinish]
    rw [if_pos (le_refl cur), if_pos (le_refl cur),
      if_pos (fun h => hrem h.2),
      getAmount0DeltaRoundUp_self cur liquidity true (by omega),
      if_neg (not_not_intro ⟨trivial, hrem⟩)]
    show (match (if (0:Int) ≤ rem ∧ cur ≠ cur
            then (Except.ok (wsub (Int.natAbs rem) 0) : Except String Nat)
            else mulDivRoundingUp 0 feePips (u32sub 1000000 feePips)) with
      | .error e => (.error e : Except String (Nat × Nat × Nat × Nat))
      | .ok feeAmount =>
        .ok (cur, 0,
          (if ¬(0:Int) ≤ rem ∧ 0 > Int.natAbs rem then Int.natAbs rem else 0),
          feeAmount)) = .ok (cur, 0, 0, 0)
    rw [if_neg (fun h => hrem h.1), hfz, if_neg (fun h => Nat.not_lt_zero _ h.2)]

/-! ## C3: zero-width step of `compute_swap_step` -/

/-- C3: when `sqrt_ratio_current_x96 = sqrt_ratio_target_x96` (with a positive
price and a fee below 100%), `compute_swap_step` returns the unchanged price
with `amount_in = amount_out = fee_amount = 0`, for every liquidity and every
signed `amount_remaining` (both the exact-input and the exact-output path). -/
theorem computeSwapStep_zero_width (cur liquidity feePips : Nat) (rem : Int)
    (hcur : 0 < cur) (hfee : feePips < 1000000) :
    computeSwapStep cur cur liquidity rem feePips = .ok (cur, 0, 0, 0) := by
  simp only [computeSwapStep]
  by_cases hrem : (0 : Int) ≤ rem
  · rw [if_pos hrem]
    obtain ⟨v, hv⟩ := mulDiv_fee_ok (i256Raw rem) feePips (i256Raw_lt rem) hfee
    rw [hv, if_pos (le_refl cur), getAmount0DeltaRoundUp_self cur liquidity true (by omega)]
    show (match (if v ≥ 0 then (Except.ok cur : Except String Nat)
            else getNextSqrtPriceFromInput cur liquidity v (decide (cur ≥ cur))) with
      | .error e => (.error e : Except String (Nat × Nat × Nat × Nat))
      | .ok next => computeSwapStepFinish cur cur next liquidity rem feePips 0 0)
      = .ok (cur, 0, 0, 0)
    rw [if_pos (Nat.zero_le v)]
    exact finish_self cur liquidity feePips rem hcur hfee
  · rw [if_neg hrem, if_pos (le_refl cur), getAmount1DeltaRoundUp_self cur liquidity false]
    show (match (if Int.natAbs rem ≥ 0 then (Except.ok cur : Except String Nat)
            else getNextSqrtPriceFromOutput cur liquidity (Int.natAbs rem) (decide (cur ≥ cur))) with
      | .error e => (.error e : Except String (Nat × Nat × Nat × Nat))
      | .ok next => computeSwapStepFinish cur cur next liquidity rem feePips 0 0)
      = .ok (cur, 0, 0, 0)
    rw [if_pos (Nat.zero_le _)]
    exact finish_self cur liquidity feePips rem hcur hfee

/-- C3 witness: the zero-width theorem instantiated at the initial price
`2^96`, liquidity 1000, fee 3000 and remaining amount 7. -/
theorem computeSwapStep_zero_width_witness :
    (0 : Nat) < 2 ^ 96 ∧ (3000 : Nat) < 1000000 ∧
    computeSwapStep (2 ^ 96) (2 ^ 96) 1000 7 3000 = .ok (2 ^ 96, 0, 0, 0) :=
  ⟨by norm_num, by norm_num,
    computeSwapStep_zero_width (2 ^ 96) 1000 3000 7 (by norm_num) (by norm_num)⟩

end AmmVoyage
namespace AmmVoyage

/-! ## C8: the sqrt-price range invariant of the swap loop

The chain below bounds the Q128 intermediate `ratio` of
`get_sqrt_ratio_at_tick` over the whole valid tick range by splitting the
table walk into its low ten bits (1024 cases) and high bits (867 cases),
scanning both by `decide`, and transporting the bounds through the final
shift and inversion; the loop-body preservation then follows because every
reachable next price is a clamped-tick price, a price revalidated by
`get_tick_at_sqrt_ratio`'s own entry guard, or the unchanged start price. -/

lemma and_mod_small (n m : Nat) (h : m < 1024) : n % 1024 &&& m = n &&& m := by
  apply Nat.eq_of_testBit_eq
  intro i
  rw [Nat.testBit_and, Nat.testBit_and, show (1024 : Nat) = 2 ^ 10 from rfl,
    Nat.testBit_mod_two_pow]
  by_cases hi : i < 10
  · simp [hi]
  · have hm : m.testBit i = false := by
      apply Nat.testBit_eq_false_of_lt
      calc m < 1024 := h
        _ = 2 ^ 10 := rfl
        _ ≤ 2 ^ i := Nat.pow_le_pow_right (by norm_num) (by omega)
    simp [hm, hi]

lemma pow2_bne_zero (k : Nat) : (2 ^ k != 0) = true :=
  bne_iff_ne.mpr (pow_ne_zero k two_ne_zero)

lemma and_shift_pow (n j : Nat) : (n >>> 10 &&& 2 ^ j != 0) = (n &&& 2 ^ (10 + j) != 0) := by
  rw [Nat.and_two_pow, Nat.and_two_pow, Nat.testBit_shiftRight]
  cases n.testBit (10 + j) <;> simp [pow2_bne_zero]

lemma applyConsts_cons (n : Nat) (p : Nat × Nat) (t : List (Nat × Nat)) (r : Nat) :
    applyConsts n (p :: t) r
      = applyConsts n t (if n &&& p.1 != 0 then ratioStep r p.2 else r) := rfl

lemma applyConsts_congr (n m : Nat) (cs : List (Nat × Nat))
    (h : ∀ p ∈ cs, (n &&& p.1 != 0) = (m &&& p.1 != 0)) :
    ∀ r, applyConsts n cs r = applyConsts m cs r := by
  induction cs with
  | nil => intro r; rfl
  | cons p t ih =>
    intro r
    rw [applyConsts_cons, applyConsts_cons, h p (List.mem_cons_self p t)]
    exact ih (fun q hq => h q (List.mem_cons_of_mem p hq)) _

lemma applyConsts_pair (n m : Nat) {cs ds : List (Nat × Nat)}
    (h : List.Forall₂
      (fun p q => p.2 = q.2 ∧ ((n &&& p.1 != 0) = (m &&& q.1 != 0))) cs ds) :
    ∀ r, applyConsts n cs r = applyConsts m ds r := by
  induction h with
  | nil => intro r; rfl
  | cons hpq htl ih =>
    intro r
    rw [applyConsts_cons, applyConsts_cons, hpq.2, hpq.1]
    exact ih _

lemma applyConsts_low_mod (n : Nat) :
    ∀ r, applyConsts (n % 1024) tickConstsLow r = applyConsts n tickConstsLow r := by
  have hm : ∀ p ∈ tickConstsLow, p.1 < 1024 := by decide
  exact applyConsts_congr _ _ _ (fun p hp => by rw [and_mod_small n p.1 (hm p hp)])

lemma applyConsts_high_shift (n : Nat) :
    ∀ r, applyConsts n tickConstsHigh r
      = applyConsts (n >>> 10) tickConstsHighShifted r := by
  apply applyConsts_pair
  simp only [tickConstsHigh, tickConstsHighShifted]
  exact .cons ⟨rfl, (and_shift_pow n 0).symm⟩
    (.cons ⟨rfl, (and_shift_pow n 1).symm⟩
    (.cons ⟨rfl, (and_shift_pow n 2).symm⟩
    (.cons ⟨rfl, (and_shift_pow n 3).symm⟩
    (.cons ⟨rfl, (and_shift_pow n 4).symm⟩
    (.cons ⟨rfl, (and_shift_pow n 5).symm⟩
    (.cons ⟨rfl, (and_shift_pow n 6).symm⟩
    (.cons ⟨rfl, (and_shift_pow n 7).symm⟩
    (.cons ⟨rfl, (and_shift_pow n 8).symm⟩
    (.cons ⟨rfl, (and_shift_pow n 9).symm⟩ .nil)))))))))

lemma ratio_decomp (n : Nat) :
    ratioAtAbsTick n = highFold (n >>> 10) (lowFold (n % 1024)) := by
  show applyConsts n tickConstsHigh
      (applyConsts n tickConstsLow
        (if n &&& 1 != 0 then 340265354078544963557816517032075149313 else 2 ^ 128))
    = applyConsts (n >>> 10) tickConstsHighShifted
      (applyConsts (n % 1024) tickConstsLow
        (if n % 1024 &&& 1 != 0
         then 340265354078544963557816517032075149313 else 2 ^ 128))
  rw [and_mod_small n 1 (by norm_num), applyConsts_low_mod,
    applyConsts_high_shift]

lemma ratioStep_le_ratioStep {a b : Nat} (c : Nat) (h : a ≤ b) :
    ratioStep a c ≤ ratioStep b c := by
  simp only [ratioStep, Nat.shiftRight_eq_div_pow]
  exact Nat.div_le_div_right (Nat.mul_le_mul_right _ h)

lemma applyConsts_mono (n : Nat) (cs : List (Nat × Nat)) :
    ∀ {a b : Nat}, a ≤ b → applyConsts n cs a ≤ applyConsts n cs b := by
  induction cs with
  | nil => intro a b h; exact h
  | cons p t ih =>
    intro a b h
    rw [applyConsts_cons, applyConsts_cons]
    apply ih
    by_cases hc : (n &&& p.1 != 0) = true
    · rw [if_pos hc, if_pos hc]; exact ratioStep_le_ratioStep p.2 h
    · rw [if_neg hc, if_neg hc]; exact h

lemma ratioStep_le (a c : Nat) (hc : c ≤ 2 ^ 128) : ratioStep a c ≤ a := by
  simp only [ratioStep, Nat.shiftRight_eq_div_pow]
  calc a * c / 2 ^ 128 ≤ a * 2 ^ 128 / 2 ^ 128 :=
        Nat.div_le_div_right (Nat.mul_le_mul_left _ hc)
    _ = a := Nat.mul_div_cancel _ (by positivity)

lemma applyConsts_le (n : Nat) (cs : List (Nat × Nat))
    (hcs : ∀ p ∈ cs, p.2 ≤ 2 ^ 128) : ∀ a, applyConsts n cs a ≤ a := by
  induction cs with
  | nil => intro a; exact le_refl a
  | cons p t ih =>
    intro a
    rw [applyConsts_cons]
    have h1 : (if n &&& p.1 != 0 then ratioStep a p.2 else a) ≤ a := by
      by_cases hc : (n &&& p.1 != 0) = true
      · rw [if_pos hc]; exact ratioStep_le a p.2 (hcs p (List.mem_cons_self p t))
      · rw [if_neg hc]
    exact le_trans (ih (fun q hq => hcs q (List.mem_cons_of_mem p hq)) _) h1

lemma ratioAtAbsTick_le (n : Nat) : ratioAtAbsTick n ≤ 2 ^ 128 := by
  show applyConsts n tickConstsHigh
      (applyConsts n tickConstsLow
        (if n &&& 1 != 0 then 340265354078544963557816517032075149313 else 2 ^ 128))
    ≤ 2 ^ 128
  have hi : (if n &&& 1 != 0
      then (340265354078544963557816517032075149313 : Nat) else 2 ^ 128) ≤ 2 ^ 128 := by
    by_cases hc : (n &&& 1 != 0) = true
    · rw [if_pos hc]; norm_num
    · rw [if_neg hc]
  have hl : ∀ p ∈ tickConstsLow, p.2 ≤ 2 ^ 128 := by decide
  have hh : ∀ p ∈ tickConstsHigh, p.2 ≤ 2 ^ 128 := by decide
  exact le_trans (applyConsts_le n _ hh _)
    (le_trans (applyConsts_le n _ hl _) hi)

lemma lowFold_ge_mLow : ∀ L, L < 1024 → mLow ≤ lowFold L := by decide

lemma lowFold_ge_mLow487 : ∀ L, L < 488 → mLow487 ≤ lowFold L := by decide

lemma highFold_ge_mLow : ∀ H, H < 866 → ratioLowerEnd ≤ highFold H mLow := by decide

lemma highFold_866 : ratioLowerEnd ≤ highFold 866 mLow487 := by decide

lemma ratio_end : ratioAtAbsTick 887272 = ratioLowerEnd := by decide

lemma ratioAtAbsTick_ge (n : Nat) (hn : n ≤ 887272) :
    ratioLowerEnd ≤ ratioAtAbsTick n := by
  rcases lt_or_eq_of_le hn with hlt | he
  · rw [ratio_decomp]
    have hL : n % 1024 < 1024 := Nat.mod_lt _ (by norm_num)
    have hsd : n >>> 10 = n / 1024 := by
      rw [Nat.shiftRight_eq_div_pow]
    have hH : n >>> 10 ≤ 866 := by rw [hsd]; omega
    rcases lt_or_eq_of_le hH with hH' | hH'
    · calc ratioLowerEnd ≤ highFold (n >>> 10) mLow := highFold_ge_mLow _ hH'
        _ ≤ highFold (n >>> 10) (lowFold (n % 1024)) :=
          applyConsts_mono _ _ (lowFold_ge_mLow _ hL)
    · have hL2 : n % 1024 < 488 := by
        have hd := Nat.div_add_mod n 1024
        rw [hsd] at hH'
        omega
      calc ratioLowerEnd ≤ highFold 866 mLow487 := highFold_866
        _ ≤ highFold 866 (lowFold (n % 1024)) :=
          applyConsts_mono _ _ (lowFold_ge_mLow487 _ hL2)
        _ = highFold (n >>> 10) (lowFold (n % 1024)) := by rw [hH']
  · rw [he, ratio_end]

lemma getSqrtRatioAtTick_in_range (t : Int) (h1 : MIN_TICK ≤ t) (h2 : t ≤ MAX_TICK) :
    ∃ p, getSqrtRatioAtTick t = .ok p ∧ MIN_SQRT_RATIO ≤ p ∧ p ≤ MAX_SQRT_RATIO := by
  have habs : t.natAbs ≤ 887272 := by
    simp only [MIN_TICK, MAX_TICK] at h1 h2; omega
  have hge := ratioAtAbsTick_ge t.natAbs habs
  have hle := ratioAtAbsTick_le t.natAbs
  simp only [getSqrtRatioAtTick]
  rw [if_neg (by omega : ¬ t.natAbs > 887272)]
  by_cases ht : t > 0
  · rw [if_pos ht]
    refine ⟨_, rfl, ?_, ?_⟩
    · have h3 : (M256 - 1) / 2 ^ 128 ≤ (M256 - 1) / ratioAtAbsTick t.natAbs :=
        Nat.div_le_div_left hle (lt_of_lt_of_le (by decide) hge)
      have h6 : (2 ^ 96 - 1 : Nat) ≤ ((M256 - 1) / ratioAtAbsTick t.natAbs) >>> 32 := by
        calc (2 ^ 96 - 1 : Nat) = (M256 - 1) / 2 ^ 128 / 2 ^ 32 := by decide
          _ ≤ ((M256 - 1) / ratioAtAbsTick t.natAbs) / 2 ^ 32 := Nat.div_le_div_right h3
          _ = ((M256 - 1) / ratioAtAbsTick t.natAbs) >>> 32 :=
            (Nat.shiftRight_eq_div_pow _ _).symm
      have h7 : MIN_SQRT_RATIO ≤ 2 ^ 96 - 1 := by decide
      exact le_trans (le_trans h7 h6) (Nat.le_add_right _ _)
    · have h3 : (M256 - 1) / ratioAtAbsTick t.natAbs ≤ (M256 - 1) / ratioLowerEnd :=
        Nat.div_le_div_left hge (by decide)
      have h6 : ((M256 - 1) / ratioAtAbsTick t.natAbs) >>> 32
          ≤ ((M256 - 1) / ratioLowerEnd) >>> 32 := by
        simp only [Nat.shiftRight_eq_div_pow]
        exact Nat.div_le_div_right h3
      have h4 : ((M256 - 1) / ratioLowerEnd) >>> 32 + 1 = MAX_SQRT_RATIO := by decide
      have hite : (if (M256 - 1) / ratioAtAbsTick t.natAbs % 2 ^ 32 = 0
          then (0 : Nat) else 1) ≤ 1 := by split <;> omega
      omega
  · rw [if_neg ht]
    refine ⟨_, rfl, ?_, ?_⟩
    · simp only [ratioLowerEnd] at hge
      show MIN_SQRT_RATIO ≤ ratioAtAbsTick t.natAbs >>> 32
        + (if ratioAtAbsTick t.natAbs % 2 ^ 32 = 0 then 0 else 1)
      rw [Nat.shiftRight_eq_div_pow]
      simp only [ MIN_SQRT_RATIO]
      split <;> omega
    · have h6 : ratioAtAbsTick t.natAbs >>> 32 ≤ (2 ^ 128 : Nat) >>> 32 := by
        simp only [Nat.shiftRight_eq_div_pow]
        exact Nat.div_le_div_right hle
      have h7 : (2 ^ 128 : Nat) >>> 32 = 2 ^ 96 := by decide
      have h8 : (2 ^ 96 : Nat) + 1 ≤ MAX_SQRT_RATIO := by decide
      have hite : (if ratioAtAbsTick t.natAbs % 2 ^ 32 = 0
          then (0 : Nat) else 1) ≤ 1 := by split <;> omega
      omega

lemma getTickAtSqrtRatio_ok_range (p : Nat) (t : Int)
    (h : getTickAtSqrtRatio p = .ok t) :
    MIN_SQRT_RATIO ≤ p ∧ p < MAX_SQRT_RATIO := by
  by_cases hg : p ≥ MIN_SQRT_RATIO ∧ p < MAX_SQRT_RATIO
  · exact hg
  · unfold getTickAtSqrtRatio at h
    rw [if_pos hg] at h
    exact Except.noConfusion h

lemma swapStep_preserves_range (widen : Int → Except String (Int → Option TickInfo))
    (pool : PoolState) (zfo exactIn : Bool) (limit : Nat) (s s' : SwapState)
    (pool' : PoolState)
    (h : swapStep widen pool zfo exactIn limit s = .ok (s', pool'))
    (hlo : MIN_SQRT_RATIO ≤ s.sqrtPriceX96) (hhi : s.sqrtPriceX96 ≤ MAX_SQRT_RATIO) :
    MIN_SQRT_RATIO ≤ s'.sqrtPriceX96 ∧ s'.sqrtPriceX96 ≤ MAX_SQRT_RATIO := by
  simp only [swapStep] at h
  split at h
  next e heq => exact Except.noConfusion h
  next tn heq =>
  split at h
  next e heq2 => exact Except.noConfusion h
  next spn heq2 =>
  split at h
  next e heq3 => exact Except.noConfusion h
  next step heq3 =>
  split at h
  next e heq4 => exact Except.noConfusion h
  next acc heq4 =>
  split at h
  next hcp =>
    split at h
    next e heq5 => exact Except.noConfusion h
    next lp heq5 =>
      injection h with h2
      injection h2 with ha hb
      subst ha
      show MIN_SQRT_RATIO ≤ step.1 ∧ step.1 ≤ MAX_SQRT_RATIO
      rw [hcp]
      have hcl : MIN_TICK ≤ (if tn.1 < MIN_TICK then MIN_TICK
            else if tn.1 > MAX_TICK then MAX_TICK else tn.1)
          ∧ (if tn.1 < MIN_TICK then MIN_TICK
            else if tn.1 > MAX_TICK then MAX_TICK else tn.1) ≤ MAX_TICK := by
        constructor <;> split_ifs <;> simp only [MIN_TICK, MAX_TICK] at * <;> omega
      obtain ⟨p, hp, hp1, hp2⟩ := getSqrtRatioAtTick_in_range _ hcl.1 hcl.2
      rw [hp] at heq2
      injection heq2 with hpe
      exact ⟨hpe ▸ hp1, hpe ▸ hp2⟩
  next hcp =>
    split at h
    next hne =>
      split at h
      next e heq6 => exact Except.noConfusion h
      next t' heq6 =>
        injection h with h2
        injection h2 with ha hb
        subst ha
        show MIN_SQRT_RATIO ≤ step.1 ∧ step.1 ≤ MAX_SQRT_RATIO
        obtain ⟨hg1, hg2⟩ := getTickAtSqrtRatio_ok_range step.1 t' heq6
        exact ⟨hg1, le_of_lt hg2⟩
    next hne =>
      injection h with h2
      injection h2 with ha hb
      subst ha
      show MIN_SQRT_RATIO ≤ step.1 ∧ step.1 ≤ MAX_SQRT_RATIO
      rw [not_not.mp hne]
      exact ⟨hlo, hhi⟩

lemma swap_rejects_bad_limit (widen : Int → Except String (Int → Option TickInfo))
    (pool : PoolState) (zfo : Bool) (amt : Int) (limit : Nat) (fuel : Nat)
    (hu : pool.slot0.unlocked = true) (ha : amt ≠ 0)
    (hp1 : MIN_SQRT_RATIO ≤ pool.slot0.sqrtPriceX96)
    (hp2 : pool.slot0.sqrtPriceX96 ≤ MAX_SQRT_RATIO)
    (hbad : limit < MIN_SQRT_RATIO ∨ MAX_SQRT_RATIO < limit) :
    swap widen pool zfo amt limit fuel = .error "SPL" := by
  unfold swap
  rw [if_neg ha, if_neg (not_not_intro hu)]
  cases zfo
  · simp only [Bool.false_eq_true, if_false]
    rw [if_pos (by
      rintro ⟨hgt, hlt⟩
      simp only [ MIN_SQRT_RATIO, MAX_SQRT_RATIO] at *
      omega)]
  · simp only [eq_self_iff_true, if_true]
    rw [if_pos (by
      rintro ⟨hlt, hgt⟩
      simp only [ MIN_SQRT_RATIO, MAX_SQRT_RATIO] at *
      omega)]

/-- C8: (i) one iteration of the `swap` loop preserves the sqrt-price bounds:
whenever the loop body succeeds from a state whose `sqrt_price_x96` is within
`[MIN_SQRT_RATIO, MAX_SQRT_RATIO]`, the resulting state's price is again
within the bounds (the reached price is either a clamped-tick price, a price
revalidated by `get_tick_at_sqrt_ratio`'s own bounds guard, or the unchanged
start price); (ii) a price limit outside the open range is rejected by the
entry validation with the `SPL` bounds error before any iteration runs. -/
theorem swap_price_range_invariant :
    (∀ widen pool zfo exactIn limit s s' pool',
        swapStep widen pool zfo exactIn limit s = .ok (s', pool') →
        MIN_SQRT_RATIO ≤ s.sqrtPriceX96 → s.sqrtPriceX96 ≤ MAX_SQRT_RATIO →
        MIN_SQRT_RATIO ≤ s'.sqrtPriceX96 ∧ s'.sqrtPriceX96 ≤ MAX_SQRT_RATIO)
    ∧ (∀ widen pool zfo amt limit fuel,
        pool.slot0.unlocked = true → amt ≠ 0 →
        MIN_SQRT_RATIO ≤ pool.slot0.sqrtPriceX96 →
        pool.slot0.sqrtPriceX96 ≤ MAX_SQRT_RATIO →
        limit < MIN_SQRT_RATIO ∨ MAX_SQRT_RATIO < limit →
        swap widen pool zfo amt limit fuel = .error "SPL") :=
  ⟨fun widen pool zfo exactIn limit s s' pool' h h1 h2 =>
      swapStep_preserves_range widen pool zfo exactIn limit s s' pool' h h1 h2,
   fun widen pool zfo amt limit fuel hu ha hp1 hp2 hbad =>
      swap_rejects_bad_limit widen pool zfo amt limit fuel hu ha hp1 hp2 hbad⟩

/-- C8 witness: the invariant applied to a concrete successful iteration
(the `stateW2`/`poolW2` partial-fill step) and to a concrete swap call whose
limit lies below `MIN_SQRT_RATIO`. -/
theorem swap_price_range_invariant_witness :
    ( MIN_SQRT_RATIO ≤ (79228162514264336873287927480 : Nat) ∧
      (79228162514264336873287927480 : Nat) ≤ MAX_SQRT_RATIO) ∧
    swap widenUseless poolW true 5 4295128738 3 = .error "SPL" :=
  ⟨swap_price_range_invariant.1 widenUseless poolW2 true true limitW stateW2
      { amountSpecifiedRemaining := 0, amountCalculated := -9,
        sqrtPriceX96 := 79228162514264336873287927480, tick := -1,
        liquidity := 1100000000000000000 } poolW2
      rfl (by decide) (by decide),
   swap_price_range_invariant.2 widenUseless poolW true 5 4295128738 3
      rfl (by decide) (by decide) (by decide) (Or.inl (by decide))⟩

end AmmVoyage
